import Mathlib

/-!
Shallow embedding of the caching and background-refresh subsystem of the
explorer (source file src/cache.js): the Update Manager cycle, the live and
immutable caches it writes, the SQLite statistics store
(blocks_history / daily_stats), the startup retention sweep, and the
freshness check.  JavaScript numbers are modelled as Int where the code only
ever holds integers (timestamps, heights, counts, satoshi values) and as Rat
where it holds general floats (difficulty, hashrate, supply, average block
size); each fallible upstream fetch of one cycle is modelled as an
`Except Unit` input to that cycle.
-/

/-- One entry of the /mempool/recent response; the cycle only uses the count. -/
structure MempoolTx where
  txid : String
deriving DecidableEq, Repr

/-- The /blockchain/getsupply response; `total_amount_float` may be missing,
matching the `supplyData.total_amount_float || 0` read in the source. -/
structure SupplyData where
  total_amount_float : Option Rat
deriving DecidableEq, Repr

/-- A transaction output; `value` may be missing, matching `vout.value || 0`. -/
structure Vout where
  value : Option Int
deriving DecidableEq, Repr

/-- A transaction input, carrying the coinbase marker read by the cycle. -/
structure Vin where
  is_coinbase : Bool
deriving DecidableEq, Repr

/-- A transaction as returned by /block/:id/txs/0. -/
structure Tx where
  txid : String
  vin : List Vin
  vout : List Vout
deriving DecidableEq, Repr

/-- A block summary as returned by /blocks; `tx_count` and `size` may be
missing, matching the `block.tx_count || 0` and `block.size || 0` reads. -/
structure Block where
  id : String
  height : Int
  timestamp : Int
  tx_count : Option Int
  size : Option Int
  difficulty : Rat
deriving DecidableEq, Repr

/-- JavaScript truthiness of a possibly-undefined number: `!x` is true
exactly when x is undefined or 0. -/
def jsTruthyInt (x : Option Int) : Bool :=
  match x with
  | none => false
  | some n => n != 0

/-- JavaScript `Math.round`: nearest integer, ties rounded toward +infinity,
i.e. `Math.round x = Int.floor (x + 1/2)`. -/
def jsRound (q : Rat) : Int :=
  ⌊q + 1/2⌋

/-- Civil date (year, month, day) of a day count from the Unix epoch
(1970-01-01 is day 0), proleptic Gregorian in UTC; this is the calendar
arithmetic behind the JavaScript `new Date(ts*1000).toISOString()` calls. -/
def civilFromDays (z : Int) : Int × Int × Int :=
  let z2 := z + 719468
  let era := z2.fdiv 146097
  let doe := z2 - era * 146097
  let yoe := (doe - doe.fdiv 1460 + doe.fdiv 36524 - doe.fdiv 146096).fdiv 365
  let y := yoe + era * 400
  let doy := doe - (365 * yoe + yoe.fdiv 4 - yoe.fdiv 100)
  let mp := (5 * doy + 2).fdiv 153
  let d := doy - (153 * mp + 2).fdiv 5 + 1
  let m := mp + (if mp < 10 then 3 else -9)
  (y + (if m ≤ 2 then 1 else 0), m, d)

/-- Left-pad the decimal digits of a nonnegative component to width 2. -/
def pad2 (n : Int) : String :=
  if n < 10 then "0" ++ toString n else toString n

/-- Left-pad the decimal digits of a year to width 4. -/
def pad4 (n : Int) : String :=
  if n < 10 then "000" ++ toString n
  else if n < 100 then "00" ++ toString n
  else if n < 1000 then "0" ++ toString n
  else toString n

/-- The date bucket `new Date(ts * 1000).toISOString().split('T')[0]` of a
Unix timestamp in seconds: the UTC calendar day as a "YYYY-MM-DD" string. -/
def toISODate (ts : Int) : String :=
  let c := civilFromDays (ts.fdiv 86400)
  pad4 c.1 ++ "-" ++ pad2 c.2.1 ++ "-" ++ pad2 c.2.2

/-- The five live-cache entries written by the Update Manager, one field per
key of LIVE_KEYS; `none` is an absent entry.  The live LRU cache (max 100)
holds only these five keys, so capacity eviction never fires for them. -/
structure DashboardData where
  tipHeight : Int
  hashrate : Rat
  avgBlockTime : Int
  mempoolCount : Nat
  difficulty : Rat
  supply : Rat
  blockReward : Int
  blocks : List Block
  updatedAt : Int
deriving DecidableEq, Repr

structure LiveState where
  dashboard : Option DashboardData
  blocks : Option (List Block)
  tipHeight : Option Int
  mempool : Option (List MempoolTx)
  blockReward : Option Int
deriving DecidableEq, Repr

/-- A row of the blocks_history table (the block_reward column keeps its
DEFAULT 0: the insert in saveBlocksToStats never writes it). -/
structure HistRow where
  height : Int
  hash : String
  timestamp : Int
  tx_count : Int
  size : Int
  date : String
deriving DecidableEq, Repr

/-- A row of the daily_stats table. -/
structure DailyRow where
  date : String
  tx_count : Int
  block_count : Int
  total_size : Int
  avg_block_size : Rat
  updated_at : Int
deriving DecidableEq, Repr

/-- The SQLite statistics database contents. -/
structure StatsDB where
  history : List HistRow
  daily : List DailyRow
deriving DecidableEq, Repr

/-- Module-level mutable state of cache.js touched by the Update Manager:
the live cache, the immutable cache (as a key/value association list), the
lastUpdateTime bookkeeping, the single-flight flag `updateManagerRunning`,
and the statistics database (null until initDatabase succeeds).
`cyclesStarted` instruments how many cycle bodies have passed the guard. -/
structure ManagerState where
  live : LiveState
  immut : List (String × Tx)
  lastUpdateTime : Int
  running : Bool
  cyclesStarted : Nat
  stats : Option StatsDB
deriving DecidableEq, Repr

/-- Outcomes of the upstream fetches issued by one cycle: the four fan-out
fetches of the Promise.all and the on-demand /block/:id/txs/0 reward fetch. -/
structure FetchResults where
  blocks : Except Unit (List Block)
  tipHeight : Except Unit Int
  mempool : Except Unit (List MempoolTx)
  supply : Except Unit SupplyData
  rewardTxs : Except Unit (List Tx)

/-- setImmutable: store value under key in the immutable LRU cache. -/
def setImmutable (immut : List (String × Tx)) (key : String) (v : Tx) :
    List (String × Tx) :=
  (immut.filter (fun p => p.1 ≠ key)) ++ [(key, v)]

/-- The `blocks[0]?.difficulty || 0` read. -/
def latestDifficulty (blocks : List Block) : Rat :=
  (blocks.head?.map Block.difficulty).getD 0

/-- The avgBlockTime derivation of the cycle:
`blocks.length > 1 ? Math.round((blocks[0].timestamp - blocks[blocks.length-1].timestamp) / (blocks.length - 1)) : 120`. -/
def computeAvgBlockTime (blocks : List Block) : Int :=
  if blocks.length > 1 then
    jsRound ((((blocks.head?.map Block.timestamp).getD 0 -
      (blocks.getLast?.map Block.timestamp).getD 0 : Int) : Rat) /
      ((blocks.length : Rat) - 1))
  else 120

/-- The guard `!blockReward && blocks[0]` deciding whether the reward
sub-fetch is attempted in a cycle. -/
def rewardFetchGuard (cached : Option Int) (blocks : List Block) : Bool :=
  !(jsTruthyInt cached) && !blocks.isEmpty

/-- The block-reward derivation step of a cycle: starting from the cached
live value, optionally fetch the newest block's first transactions, take the
coinbase output sum, and cache that transaction in the immutable cache;
errors of the sub-fetch are caught and leave the value unchanged.  Returns
the resulting blockReward variable and the immutable cache. -/
def rewardStep (cached : Option Int) (blocks : List Block)
    (rtxs : Except Unit (List Tx)) (immut : List (String × Tx)) :
    Option Int × List (String × Tx) :=
  if rewardFetchGuard cached blocks then
    match rtxs with
    | Except.error _ => (cached, immut)
    | Except.ok txs =>
      match txs.head? with
      | none => (cached, immut)
      | some tx0 =>
        if (tx0.vin.head?.map Vin.is_coinbase).getD false then
          (some (tx0.vout.foldl (fun s v => s + v.value.getD 0) 0),
           setImmutable immut ("tx:" ++ tx0.txid) tx0)
        else (cached, immut)
  else (cached, immut)

/-- Whether blocks_history already holds a row with the given height. -/
def hasHeight (rows : List HistRow) (h : Int) : Bool :=
  rows.any (fun x => x.height == h)

/-- One INSERT OR IGNORE into blocks_history: height is the primary key, so
a row whose height is already present is ignored, never overwritten. -/
def insertHistRow (rows : List HistRow) (r : HistRow) : List HistRow :=
  if hasHeight rows r.height then rows else rows ++ [r]

/-- The blocks_history row built from one block inside saveBlocksToStats. -/
def histRowOfBlock (b : Block) : HistRow :=
  { height := b.height, hash := b.id, timestamp := b.timestamp,
    tx_count := b.tx_count.getD 0, size := b.size.getD 0,
    date := toISODate b.timestamp }

/-- The insertMany transaction of saveBlocksToStats. -/
def insertBlocks (rows : List HistRow) (blocks : List Block) : List HistRow :=
  blocks.foldl (fun acc b => insertHistRow acc (histRowOfBlock b)) rows

/-- INSERT OR REPLACE into daily_stats keyed by date. -/
def upsertDaily (rows : List DailyRow) (r : DailyRow) : List DailyRow :=
  (rows.filter (fun x => x.date ≠ r.date)) ++ [r]

/-- updateDailyStats(date): aggregate all blocks_history rows of that date
(COUNT, SUM tx_count, SUM size, AVG size) and upsert-overwrite the
daily_stats row, provided at least one history row has that date. -/
def updateDailyStats (s : StatsDB) (date : String) (nowSec : Int) : StatsDB :=
  let rows := s.history.filter (fun r => r.date == date)
  let agg : DailyRow :=
    { date := date,
      tx_count := (rows.map HistRow.tx_count).sum,
      block_count := (rows.length : Int),
      total_size := (rows.map HistRow.size).sum,
      avg_block_size := ((rows.map HistRow.size).sum : Rat) / (rows.length : Rat),
      updated_at := nowSec }
  if rows.length > 0 then
    { s with daily := upsertDaily s.daily agg }
  else s

/-- saveBlocksToStats: no-op when the database is absent or the batch is
empty; otherwise idempotently insert every block into blocks_history, then
recompute the daily_stats row of the current wall-clock date (and only that
date). -/
def saveBlocksToStats (db : Option StatsDB) (blocks : List Block)
    (nowMs : Int) : Option StatsDB :=
  match db with
  | none => none
  | some s =>
    if blocks.isEmpty then some s
    else
      let s1 : StatsDB := { s with history := insertBlocks s.history blocks }
      let today := toISODate (nowMs.fdiv 1000)
      some (updateDailyStats s1 today (nowMs.fdiv 1000))

/-- The retention sweep of initDatabase: delete blocks_history rows with
timestamp before now minus 90 days, and daily_stats rows whose date string
is before the corresponding date. -/
def initDatabase (s : StatsDB) (nowMs : Int) : StatsDB :=
  let ninetyDaysAgo := nowMs.fdiv 1000 - 90 * 24 * 60 * 60
  let ninetyDaysAgoDate := toISODate ninetyDaysAgo
  { history := s.history.filter (fun r => !decide (r.timestamp < ninetyDaysAgo)),
    daily := s.daily.filter (fun r => !decide (r.date < ninetyDaysAgoDate)) }

/-- UPDATE_INTERVAL = 10 * 1000 milliseconds. -/
def UPDATE_INTERVAL : Int := 10 * 1000

/-- isCacheFresh: `Date.now() - lastUpdateTime < 30000`. -/
def isCacheFresh (nowMs lastUpdateTime : Int) : Bool :=
  decide (nowMs - lastUpdateTime < 30000)

/-- The success branch of one Update Manager cycle, entered once the blocks
and tip-height fetches have both resolved; mempool and supply failures have
already degraded to their catch defaults.  Derives the aggregates, publishes
the five live keys, advances lastUpdateTime and persists the batch. -/
def runCycleOk (st : ManagerState) (blocks : List Block) (tipHeight : Int)
    (mempoolR : Except Unit (List MempoolTx)) (supplyR : Except Unit SupplyData)
    (rewardR : Except Unit (List Tx)) (nowMs : Int) : ManagerState :=
  let mempool := match mempoolR with
    | Except.ok m => m
    | Except.error _ => []
  let supplyData := match supplyR with
    | Except.ok s => s
    | Except.error _ => { total_amount_float := some 0 }
  let avgBlockTime := computeAvgBlockTime blocks
  let latestDiff := latestDifficulty blocks
  let hashrate := latestDiff * (2 : Rat) ^ 32 / (avgBlockTime : Rat)
  let rs := rewardStep st.live.blockReward blocks rewardR st.immut
  let blockReward := rs.1
  let dashboardData : DashboardData :=
    { tipHeight := tipHeight, hashrate := hashrate,
      avgBlockTime := avgBlockTime, mempoolCount := mempool.length,
      difficulty := latestDiff,
      supply := supplyData.total_amount_float.getD 0,
      blockReward := blockReward.getD 0,
      blocks := blocks.take 15, updatedAt := nowMs }
  { st with
    live :=
      { dashboard := some dashboardData, blocks := some blocks,
        tipHeight := some tipHeight, mempool := some mempool,
        blockReward := if jsTruthyInt blockReward then blockReward
                       else st.live.blockReward },
    immut := rs.2,
    lastUpdateTime := nowMs,
    stats := saveBlocksToStats st.stats blocks nowMs }

/-- The try block of one cycle: the Promise.all rejects exactly when the
blocks fetch or the tip-height fetch fails (mempool and supply carry their
own .catch), and the outer catch then leaves all state unchanged. -/
def runCycle (st : ManagerState) (f : FetchResults) (nowMs : Int) :
    ManagerState :=
  match f.blocks, f.tipHeight with
  | Except.ok blocks, Except.ok tip =>
      runCycleOk st blocks tip f.mempool f.supply f.rewardTxs nowMs
  | _, _ => st

/-- updateManager: drop the call if a cycle is already running, otherwise
set the single-flight flag, run one cycle body (which may abort internally),
and clear the flag in the finally block on every exit path. -/
def updateManager (st : ManagerState) (f : FetchResults) (nowMs : Int) :
    ManagerState :=
  if st.running then st
  else
    let started : ManagerState :=
      { st with running := true, cyclesStarted := st.cyclesStarted + 1 }
    let finished := runCycle started f nowMs
    { finished with running := false }

/-- Concrete states and fetch outcomes used by the witnesses. -/
def emptyLive : LiveState :=
  { dashboard := none, blocks := none, tipHeight := none, mempool := none,
    blockReward := none }

def st0 : ManagerState :=
  { live := emptyLive, immut := [], lastUpdateTime := 0, running := false,
    cyclesStarted := 0, stats := none }

def stBusy : ManagerState := { st0 with running := true }

def blkSimple : Block :=
  { id := "b0", height := 5, timestamp := 1000, tx_count := some 2,
    size := some 300, difficulty := 1 }

def fAllOk : FetchResults :=
  { blocks := Except.ok [blkSimple], tipHeight := Except.ok 5,
    mempool := Except.ok [], supply := Except.ok { total_amount_float := some 0 },
    rewardTxs := Except.error () }

def fBlocksFail : FetchResults := { fAllOk with blocks := Except.error () }

def fMempoolFail : FetchResults :=
  { fAllOk with
    mempool := Except.error (),
    supply := Except.ok (SupplyData.mk (some 21000000)) }

def fSupplyFail : FetchResults :=
  { fAllOk with
    mempool := Except.ok [MempoolTx.mk "m1"],
    supply := Except.error () }

def stCachedReward : ManagerState :=
  { st0 with live := { emptyLive with blockReward := some 5000000000 } }

def blkDiff1000 : Block :=
  { id := "d0", height := 9, timestamp := 1000, tx_count := some 1,
    size := some 100, difficulty := 1000 }

def fDiff1000 : FetchResults :=
  { blocks := Except.ok [blkDiff1000], tipHeight := Except.ok 9,
    mempool := Except.ok [], supply := Except.ok { total_amount_float := some 0 },
    rewardTxs := Except.error () }

/-- Modelled from the spec wording of the avgBlockTime derivation, for
comparison with the code: the exact, unrounded quotient
(timestamp of newest block - timestamp of oldest block) / (count - 1). -/
def specAvgBlockTime (blocks : List Block) : Rat :=
  (((blocks.head?.map Block.timestamp).getD 0 -
    (blocks.getLast?.map Block.timestamp).getD 0 : Int) : Rat) /
    ((blocks.length : Rat) - 1)

def cexB2 : Block :=
  { id := "x2", height := 2, timestamp := 7, tx_count := some 1,
    size := some 10, difficulty := 1 }

def cexB1 : Block :=
  { id := "x1", height := 1, timestamp := 3, tx_count := some 1,
    size := some 10, difficulty := 1 }

def cexB0 : Block :=
  { id := "x0", height := 0, timestamp := 0, tx_count := some 1,
    size := some 10, difficulty := 1 }

def cexBlocks : List Block := [cexB2, cexB1, cexB0]

def fCex : FetchResults :=
  { blocks := Except.ok cexBlocks, tipHeight := Except.ok 2,
    mempool := Except.ok [], supply := Except.ok { total_amount_float := some 0 },
    rewardTxs := Except.error () }

/-- C4 counterexample: a batch holding a single block whose timestamp falls
on 1970-01-01 is persisted while the wall clock reads day 200 (1970-07-20);
the batch touches date 1970-01-01, yet the resulting daily_stats table is
empty — no record for that date equals (or even exists for) the aggregate
block_count = 1 demanded by the claim. -/
def cexOldBlock : Block :=
  { id := "old", height := 100, timestamp := 0, tx_count := some 5,
    size := some 1000, difficulty := 1 }

def blkA : Block :=
  { id := "a", height := 100, timestamp := 0, tx_count := some 5,
    size := some 1000, difficulty := 1 }

def blkB : Block :=
  { id := "b", height := 101, timestamp := 60, tx_count := some 3,
    size := some 2000, difficulty := 1 }

def rowOld : HistRow :=
  { height := 1, hash := "o", timestamp := 777600, tx_count := 1, size := 1,
    date := "1970-01-10" }

def rowNew : HistRow :=
  { height := 2, hash := "n", timestamp := 950400, tx_count := 1, size := 1,
    date := "1970-01-12" }

def txZero : Tx :=
  { txid := "t0", vin := [{ is_coinbase := true }],
    vout := [{ value := some 0 }] }

def fZeroReward : FetchResults :=
  { blocks := Except.ok [blkSimple], tipHeight := Except.ok 5,
    mempool := Except.ok [], supply := Except.ok { total_amount_float := some 0 },
    rewardTxs := Except.ok [txZero] }

/-! Reduction helpers for the Update Manager definitions. -/

theorem runCycle_of_ok (st : ManagerState) (f : FetchResults) (nowMs : Int)
    (bs : List Block) (tip : Int)
    (hb : f.blocks = Except.ok bs) (ht : f.tipHeight = Except.ok tip) :
    runCycle st f nowMs = runCycleOk st bs tip f.mempool f.supply f.rewardTxs nowMs := by
  unfold runCycle
  rw [hb, ht]

theorem runCycle_of_abort (st : ManagerState) (f : FetchResults) (nowMs : Int)
    (h : f.blocks = Except.error () ∨ f.tipHeight = Except.error ()) :
    runCycle st f nowMs = st := by
  unfold runCycle
  rcases hb : f.blocks with e | bs
  · rfl
  · rcases ht : f.tipHeight with e | tip
    · rfl
    · rcases h with h | h
      · rw [hb] at h; cases h
      · rw [ht] at h; cases h

theorem updateManager_of_running (st : ManagerState) (f : FetchResults)
    (nowMs : Int) (h : st.running = true) : updateManager st f nowMs = st := by
  unfold updateManager
  rw [h]
  rfl

theorem updateManager_of_idle (st : ManagerState) (f : FetchResults)
    (nowMs : Int) (h : st.running = false) :
    updateManager st f nowMs =
      { runCycle { st with running := true, cyclesStarted := st.cyclesStarted + 1 }
          f nowMs with running := false } := by
  unfold updateManager
  rw [h]
  rfl

theorem runCycleOk_fields (st : ManagerState) (bs : List Block) (tip : Int)
    (mr : Except Unit (List MempoolTx)) (sr : Except Unit SupplyData)
    (rr : Except Unit (List Tx)) (nowMs : Int) :
    (runCycleOk st bs tip mr sr rr nowMs).running = st.running ∧
    (runCycleOk st bs tip mr sr rr nowMs).cyclesStarted = st.cyclesStarted := by
  constructor <;> rfl

theorem runCycle_preserves_flags (st : ManagerState) (f : FetchResults)
    (nowMs : Int) :
    (runCycle st f nowMs).running = st.running ∧
    (runCycle st f nowMs).cyclesStarted = st.cyclesStarted := by
  unfold runCycle
  rcases f.blocks with e | bs
  · exact ⟨rfl, rfl⟩
  · rcases f.tipHeight with e | tip
    · exact ⟨rfl, rfl⟩
    · exact runCycleOk_fields ..

/-! Claim theorems and their witnesses. -/

/-- C1: at most one Update Manager cycle is ever in flight: a call made
while `updateManagerRunning` is set starts no second cycle body and leaves
all state untouched (dropped, not queued), and whenever a cycle does start,
the single-flight flag is back to false when the call returns, for every
fetch outcome, error paths included. -/
theorem updateManager_single_flight (st : ManagerState) (f : FetchResults)
    (nowMs : Int) :
    (st.running = true → updateManager st f nowMs = st) ∧
    (st.running = false →
      (updateManager st f nowMs).running = false ∧
      (updateManager st f nowMs).cyclesStarted = st.cyclesStarted + 1) := by
  constructor
  · intro h
    exact updateManager_of_running st f nowMs h
  · intro h
    rw [updateManager_of_idle st f nowMs h]
    refine ⟨rfl, ?_⟩
    exact (runCycle_preserves_flags _ f nowMs).2

theorem updateManager_single_flight_witness :
    updateManager stBusy fAllOk 7 = stBusy ∧
    (updateManager st0 fAllOk 7).running = false ∧
    (updateManager st0 fAllOk 7).cyclesStarted = 1 :=
  ⟨(updateManager_single_flight stBusy fAllOk 7).1 rfl,
   ((updateManager_single_flight st0 fAllOk 7).2 rfl).1,
   ((updateManager_single_flight st0 fAllOk 7).2 rfl).2⟩

/-- C2: a blocks or tip-height sub-fetch failure aborts the cycle with the
live cache, lastUpdateTime and the statistics store all unchanged, while a
cycle whose blocks and tip-height fetches succeed always publishes a
snapshot (lastUpdateTime advances), and in it a failed mempool sub-fetch —
on its own, whatever the supply outcome — degrades to the empty-list
default, and a failed supply sub-fetch — on its own, whatever the mempool
outcome — degrades to the zero-supply default. -/
theorem updateManager_failure_policy (st : ManagerState) (f : FetchResults)
    (nowMs : Int) (hrun : st.running = false) :
    ((f.blocks = Except.error () ∨ f.tipHeight = Except.error ()) →
      (updateManager st f nowMs).live = st.live ∧
      (updateManager st f nowMs).lastUpdateTime = st.lastUpdateTime ∧
      (updateManager st f nowMs).stats = st.stats) ∧
    (∀ bs tip, f.blocks = Except.ok bs → f.tipHeight = Except.ok tip →
      ∃ d, (updateManager st f nowMs).live.dashboard = some d ∧
        (updateManager st f nowMs).lastUpdateTime = nowMs ∧
        (f.mempool = Except.error () →
          d.mempoolCount = 0 ∧
          (updateManager st f nowMs).live.mempool = some []) ∧
        (f.supply = Except.error () → d.supply = 0)) := by
  rw [updateManager_of_idle st f nowMs hrun]
  constructor
  · intro h
    rw [runCycle_of_abort _ f nowMs h]
    exact ⟨rfl, rfl, rfl⟩
  · intro bs tip hb ht
    rw [runCycle_of_ok _ f nowMs bs tip hb ht]
    refine ⟨_, rfl, rfl, ?_, ?_⟩
    · intro hm
      refine ⟨?_, ?_⟩ <;> (rw [hm]; rfl)
    · intro hs
      rw [hs]
      rfl

theorem updateManager_failure_policy_witness :
    ((updateManager st0 fBlocksFail 7).live = st0.live ∧
      (updateManager st0 fBlocksFail 7).lastUpdateTime = st0.lastUpdateTime ∧
      (updateManager st0 fBlocksFail 7).stats = st0.stats) ∧
    (∃ d, (updateManager st0 fMempoolFail 7).live.dashboard = some d ∧
      d.mempoolCount = 0 ∧
      (updateManager st0 fMempoolFail 7).live.mempool = some [] ∧
      (updateManager st0 fMempoolFail 7).lastUpdateTime = 7) ∧
    (∃ d, (updateManager st0 fSupplyFail 7).live.dashboard = some d ∧
      d.supply = 0 ∧
      (updateManager st0 fSupplyFail 7).lastUpdateTime = 7) := by
  refine ⟨(updateManager_failure_policy st0 fBlocksFail 7 rfl).1
    (Or.inl rfl), ?_, ?_⟩
  · obtain ⟨d, hd, hlast, hmem, _⟩ :=
      (updateManager_failure_policy st0 fMempoolFail 7 rfl).2 [blkSimple] 5
        rfl rfl
    obtain ⟨hcount, hkey⟩ := hmem rfl
    exact ⟨d, hd, hcount, hkey, hlast⟩
  · obtain ⟨d, hd, hlast, _, hsup⟩ :=
      (updateManager_failure_policy st0 fSupplyFail 7 rfl).2 [blkSimple] 5
        rfl rfl
    exact ⟨d, hd, hsup rfl, hlast⟩

/-- C3: the published block reward is sticky: if the live cache holds a
nonzero reward r at the start of a cycle whose blocks and tip-height fetches
succeed, then whatever the reward sub-fetch outcome (failed, empty, or never
attempted), the cycle publishes blockReward = r and the live reward key still
holds r; a cached reward is never reset to zero by a failed re-derivation. -/
theorem blockReward_sticky (st : ManagerState) (f : FetchResults) (nowMs : Int)
    (r : Int) (bs : List Block) (tip : Int)
    (hrun : st.running = false)
    (hb : f.blocks = Except.ok bs) (ht : f.tipHeight = Except.ok tip)
    (hr : st.live.blockReward = some r) (hnz : r ≠ 0) :
    (updateManager st f nowMs).live.blockReward = some r ∧
    ∃ d, (updateManager st f nowMs).live.dashboard = some d ∧
      d.blockReward = r := by
  rw [updateManager_of_idle st f nowMs hrun,
    runCycle_of_ok _ f nowMs bs tip hb ht]
  have htr : jsTruthyInt st.live.blockReward = true := by
    rw [hr]
    simpa [jsTruthyInt] using hnz
  have hstep :
      rewardStep st.live.blockReward bs f.rewardTxs st.immut =
        (st.live.blockReward, st.immut) := by
    unfold rewardStep rewardFetchGuard
    rw [htr]
    rfl
  constructor
  · show (if jsTruthyInt (rewardStep st.live.blockReward bs f.rewardTxs st.immut).1
        then (rewardStep st.live.blockReward bs f.rewardTxs st.immut).1
        else st.live.blockReward) = some r
    rw [hstep, htr, hr]
    rfl
  · refine ⟨_, rfl, ?_⟩
    show (rewardStep st.live.blockReward bs f.rewardTxs st.immut).1.getD 0 = r
    rw [hstep, hr]
    rfl

theorem blockReward_sticky_witness :
    (updateManager stCachedReward fAllOk 7).live.blockReward =
      some 5000000000 ∧
    ∃ d, (updateManager stCachedReward fAllOk 7).live.dashboard = some d ∧
      d.blockReward = 5000000000 :=
  blockReward_sticky stCachedReward fAllOk 7 5000000000 [blkSimple] 5
    rfl rfl rfl rfl (by decide)

/-- C5: isCacheFresh holds exactly when now minus lastUpdateTime is below the
30000 ms threshold; the threshold is three times the 10000 ms refresh
interval and strictly greater than it; and lastUpdateTime advances only in a
cycle that publishes a snapshot (a dropped or aborted cycle leaves it
unchanged), and then advances to that cycle's wall-clock time. -/
theorem isCacheFresh_spec :
    (∀ nowMs last : Int, isCacheFresh nowMs last = true ↔ nowMs - last < 30000) ∧
    (30000 : Int) = 3 * UPDATE_INTERVAL ∧
    UPDATE_INTERVAL < (30000 : Int) ∧
    (∀ (st : ManagerState) (f : FetchResults) (nowMs : Int),
      (updateManager st f nowMs).lastUpdateTime = st.lastUpdateTime ∨
      ((updateManager st f nowMs).lastUpdateTime = nowMs ∧
        ∃ d, (updateManager st f nowMs).live.dashboard = some d)) := by
  refine ⟨?_, by norm_num [UPDATE_INTERVAL], by norm_num [UPDATE_INTERVAL], ?_⟩
  · intro nowMs last
    simp [isCacheFresh]
  · intro st f nowMs
    rcases hrun : st.running with hfalse | htrue
    · rw [updateManager_of_idle st f nowMs hrun]
      rcases hb : f.blocks with e | bs
      · left
        rw [runCycle_of_abort _ f nowMs (Or.inl (by rw [hb]))]
      · rcases ht : f.tipHeight with e | tip
        · left
          rw [runCycle_of_abort _ f nowMs (Or.inr (by rw [ht]))]
        · right
          rw [runCycle_of_ok _ f nowMs bs tip hb ht]
          exact ⟨rfl, _, rfl⟩
    · left
      rw [updateManager_of_running st f nowMs hrun]

/-- C6: every published snapshot reports
hashrate = difficulty-of-newest-block * 2^32 / avgBlockTime, where
avgBlockTime is the value published in the same snapshot. -/
theorem hashrate_formula (st : ManagerState) (f : FetchResults) (nowMs : Int)
    (bs : List Block) (tip : Int) (hrun : st.running = false)
    (hb : f.blocks = Except.ok bs) (ht : f.tipHeight = Except.ok tip) :
    ∃ d, (updateManager st f nowMs).live.dashboard = some d ∧
      d.avgBlockTime = computeAvgBlockTime bs ∧
      d.difficulty = latestDifficulty bs ∧
      d.hashrate = latestDifficulty bs * (2 : Rat) ^ 32 /
        ((computeAvgBlockTime bs : Int) : Rat) ∧
      (∀ b rest, bs = b :: rest →
        d.hashrate = b.difficulty * (2 : Rat) ^ 32 / ((d.avgBlockTime : Int) : Rat)) := by
  rw [updateManager_of_idle st f nowMs hrun,
    runCycle_of_ok _ f nowMs bs tip hb ht]
  refine ⟨_, rfl, rfl, rfl, rfl, ?_⟩
  intro b rest hbs
  subst hbs
  rfl

theorem hashrate_formula_witness :
    ∃ d, (updateManager st0 fDiff1000 7).live.dashboard = some d ∧
      d.avgBlockTime = 120 ∧
      d.hashrate = (1000 : Rat) * 2 ^ 32 / 120 := by
  obtain ⟨d, hd, havg, hdiff, hh, _⟩ :=
    hashrate_formula st0 fDiff1000 7 [blkDiff1000] 9 rfl rfl rfl
  refine ⟨d, hd, ?_, ?_⟩
  · rw [havg]; rfl
  · rw [hh]
    norm_num [latestDifficulty, computeAvgBlockTime, blkDiff1000]

/-- C7 counterexample: with three blocks at timestamps 7, 3, 0 the exact
quotient of the claim is 7/2, but the published avgBlockTime is the rounded
value 4, so the claimed equality fails on this input. -/
theorem avgBlockTime_unrounded_cex :
    ∃ d, (updateManager st0 fCex 7).live.dashboard = some d ∧
      d.avgBlockTime = 4 ∧
      specAvgBlockTime cexBlocks = 7 / 2 ∧
      ¬ ((d.avgBlockTime : Int) : Rat) = specAvgBlockTime cexBlocks := by
  have hhd : cexBlocks.head? = some cexB2 := rfl
  have hgl : cexBlocks.getLast? = some cexB0 := rfl
  have hlen : cexBlocks.length = 3 := rfl
  have hspec : specAvgBlockTime cexBlocks = 7 / 2 := by
    unfold specAvgBlockTime
    rw [hhd, hgl, hlen]
    norm_num [cexB2, cexB0]
  have havg : computeAvgBlockTime cexBlocks = 4 := by
    unfold computeAvgBlockTime jsRound
    rw [hhd, hgl, hlen]
    norm_num [cexB2, cexB0]
  refine ⟨_, rfl, ?_, hspec, ?_⟩
  · show computeAvgBlockTime cexBlocks = 4
    exact havg
  · show ¬ ((computeAvgBlockTime cexBlocks : Int) : Rat) = specAvgBlockTime cexBlocks
    rw [havg, hspec]
    norm_num

/-- C7 amended: for a cycle whose blocks fetch returns at least 2 blocks,
the published avgBlockTime is Math.round of
(timestamp of newest - timestamp of oldest) / (count - 1) — the
nearest-integer rounding of the spec quotient, ties toward +infinity — and
for fewer than 2 blocks it is the default constant 120. -/
theorem avgBlockTime_rounded (st : ManagerState) (f : FetchResults)
    (nowMs : Int) (bs : List Block) (tip : Int) (hrun : st.running = false)
    (hb : f.blocks = Except.ok bs) (ht : f.tipHeight = Except.ok tip) :
    ∃ d, (updateManager st f nowMs).live.dashboard = some d ∧
      d.avgBlockTime =
        (if bs.length > 1 then jsRound (specAvgBlockTime bs) else 120) := by
  rw [updateManager_of_idle st f nowMs hrun,
    runCycle_of_ok _ f nowMs bs tip hb ht]
  exact ⟨_, rfl, rfl⟩

theorem avgBlockTime_rounded_witness :
    ∃ d, (updateManager st0 fCex 7).live.dashboard = some d ∧
      d.avgBlockTime =
        (if cexBlocks.length > 1 then jsRound (specAvgBlockTime cexBlocks)
         else 120) :=
  avgBlockTime_rounded st0 fCex 7 cexBlocks 2 rfl rfl rfl

/-! Helper lemmas about the daily_stats upsert. -/

theorem filter_upsert_self (rows : List DailyRow) (r : DailyRow) (dte : String)
    (hd : r.date = dte) :
    (upsertDaily rows r).filter (fun x => x.date == dte) = [r] := by
  subst hd
  unfold upsertDaily
  rw [List.filter_append]
  have h1 : (rows.filter (fun x => x.date ≠ r.date)).filter
      (fun x => x.date == r.date) = [] := by
    rw [List.filter_filter]
    apply List.filter_eq_nil_iff.2
    intro a _
    by_cases h : a.date = r.date <;> simp [h]
  rw [h1]
  simp [List.filter]

theorem filter_upsert_other (rows : List DailyRow) (r : DailyRow) (dte : String)
    (h : dte ≠ r.date) :
    (upsertDaily rows r).filter (fun x => x.date == dte) =
      rows.filter (fun x => x.date == dte) := by
  unfold upsertDaily
  rw [List.filter_append]
  have h1 : List.filter (fun x => x.date == dte) [r] = [] := by
    have : (r.date == dte) = false := by
      simp
      exact fun hh => h hh.symm
    simp [List.filter, this]
  rw [h1, List.append_nil, List.filter_filter]
  apply List.filter_congr
  intro a _
  by_cases ha : a.date = dte
  · have : a.date ≠ r.date := by rw [ha]; exact fun hh => h hh
    simp [ha, this]
    exact h
  · simp [ha]

theorem updateDailyStats_history (s : StatsDB) (dte : String) (n : Int) :
    (updateDailyStats s dte n).history = s.history := by
  unfold updateDailyStats
  dsimp only
  split <;> rfl

theorem updateDailyStats_daily_spec (s1 : StatsDB) (today : String) (n : Int) :
    (∀ rows, rows = s1.history.filter (fun r => r.date == today) → rows ≠ [] →
      (updateDailyStats s1 today n).daily.filter (fun x => x.date == today) =
        [{ date := today, tx_count := (rows.map HistRow.tx_count).sum,
           block_count := (rows.length : Int),
           total_size := (rows.map HistRow.size).sum,
           avg_block_size :=
             ((rows.map HistRow.size).sum : Rat) / (rows.length : Rat),
           updated_at := n }]) ∧
    (∀ dte, dte ≠ today →
      (updateDailyStats s1 today n).daily.filter (fun x => x.date == dte) =
        s1.daily.filter (fun x => x.date == dte)) := by
  constructor
  · intro rows hrows hne
    have hlen : (s1.history.filter (fun r => r.date == today)).length > 0 := by
      rw [← hrows]
      exact List.length_pos.2 hne
    unfold updateDailyStats
    dsimp only
    rw [if_pos hlen]
    subst hrows
    dsimp only
    exact filter_upsert_self s1.daily _ today rfl
  · intro dte hdte
    unfold updateDailyStats
    dsimp only
    split
    · exact filter_upsert_other s1.daily _ dte hdte
    · rfl

/-- C4 amended: after the persistence step runs on a nonempty batch, the
daily_stats record for the current wall-clock date — and only that date — is
recomputed as the full aggregate (COUNT, SUM of tx_count, SUM of size,
AVG of size) over all history rows carrying that date, written as a single
upsert-overwrite; daily_stats rows of every other date are left unchanged,
even when the batch touched such a date. -/
theorem dailyStats_today_rollup (s : StatsDB) (blocks : List Block)
    (nowMs : Int) (hne : blocks ≠ []) :
    ∃ s2, saveBlocksToStats (some s) blocks nowMs = some s2 ∧
      s2.history = insertBlocks s.history blocks ∧
      (∀ rows,
        rows = s2.history.filter
          (fun r => r.date == toISODate (nowMs.fdiv 1000)) →
        rows ≠ [] →
        s2.daily.filter (fun x => x.date == toISODate (nowMs.fdiv 1000)) =
          [{ date := toISODate (nowMs.fdiv 1000),
             tx_count := (rows.map HistRow.tx_count).sum,
             block_count := (rows.length : Int),
             total_size := (rows.map HistRow.size).sum,
             avg_block_size :=
               ((rows.map HistRow.size).sum : Rat) / (rows.length : Rat),
             updated_at := nowMs.fdiv 1000 }]) ∧
      (∀ dte, dte ≠ toISODate (nowMs.fdiv 1000) →
        s2.daily.filter (fun x => x.date == dte) =
          s.daily.filter (fun x => x.date == dte)) := by
  have hie : blocks.isEmpty = false := by
    cases blocks with
    | nil => exact absurd rfl hne
    | cons a as => rfl
  refine ⟨updateDailyStats { s with history := insertBlocks s.history blocks }
    (toISODate (nowMs.fdiv 1000)) (nowMs.fdiv 1000), ?_, ?_, ?_, ?_⟩
  · simp [saveBlocksToStats, hie]
  · exact updateDailyStats_history ..
  · intro rows hrows hne2
    rw [updateDailyStats_history] at hrows
    exact (updateDailyStats_daily_spec _ _ _).1 rows hrows hne2
  · intro dte hdte
    exact (updateDailyStats_daily_spec
      { s with history := insertBlocks s.history blocks } _ _).2 dte hdte

theorem dailyStats_every_date_cex :
    saveBlocksToStats (some { history := [], daily := [] }) [cexOldBlock]
        17280000000 =
      some { history := [histRowOfBlock cexOldBlock], daily := [] } ∧
    (histRowOfBlock cexOldBlock).date = "1970-01-01" ∧
    toISODate ((17280000000 : Int).fdiv 1000) = "1970-07-20" := by
  refine ⟨?_, by decide, by decide⟩
  decide

theorem dailyStats_today_rollup_witness :
    ∃ s2, saveBlocksToStats (some { history := [], daily := [] })
        [blkA, blkB] 0 = some s2 ∧
      s2.daily.filter (fun x => x.date == toISODate 0) =
        [{ date := toISODate 0, tx_count := 8, block_count := 2,
           total_size := 3000, avg_block_size := 1500, updated_at := 0 }] := by
  obtain ⟨s2, hs, hhist, htoday, hother⟩ :=
    dailyStats_today_rollup { history := [], daily := [] } [blkA, blkB] 0
      (by decide)
  have h0 : (0 : Int).fdiv 1000 = 0 := rfl
  have hrows : s2.history.filter (fun r => r.date == toISODate ((0 : Int).fdiv 1000)) =
      [histRowOfBlock blkA, histRowOfBlock blkB] := by
    rw [hhist]
    decide
  have h8 := htoday _ hrows.symm (by decide)
  rw [h0] at h8
  refine ⟨s2, hs, ?_⟩
  rw [h8]
  norm_num [histRowOfBlock, blkA, blkB]

/-! Helper lemmas about the idempotent blocks_history insert. -/

theorem hasHeight_insert_mono (rows : List HistRow) (r : HistRow) (h : Int)
    (hh : hasHeight rows h = true) :
    hasHeight (insertHistRow rows r) h = true := by
  unfold insertHistRow
  split
  · exact hh
  · unfold hasHeight at hh ⊢
    rw [List.any_append]
    simp [hh]

theorem hasHeight_insert_self (rows : List HistRow) (r : HistRow) :
    hasHeight (insertHistRow rows r) r.height = true := by
  unfold insertHistRow
  split
  · next hcond => exact hcond
  · unfold hasHeight
    rw [List.any_append]
    simp [List.any]

theorem insertBlocks_hasHeight_mono (rows : List HistRow)
    (blocks : List Block) (h : Int) (hh : hasHeight rows h = true) :
    hasHeight (insertBlocks rows blocks) h = true := by
  induction blocks generalizing rows with
  | nil => exact hh
  | cons b bs ih => exact ih _ (hasHeight_insert_mono rows (histRowOfBlock b) h hh)

theorem insertBlocks_mem (rows : List HistRow) (blocks : List Block)
    (b : Block) (hb : b ∈ blocks) :
    hasHeight (insertBlocks rows blocks) b.height = true := by
  induction blocks generalizing rows with
  | nil => cases hb
  | cons c cs ih =>
    rcases List.mem_cons.1 hb with h1 | h1
    · subst h1
      exact insertBlocks_hasHeight_mono _ cs _
        (hasHeight_insert_self rows (histRowOfBlock b))
    · exact ih _ h1

theorem insertHistRow_noop (rows : List HistRow) (r : HistRow)
    (h : hasHeight rows r.height = true) : insertHistRow rows r = rows := by
  simp [insertHistRow, h]

theorem insertBlocks_noop (rows : List HistRow) (blocks : List Block)
    (h : ∀ b ∈ blocks, hasHeight rows b.height = true) :
    insertBlocks rows blocks = rows := by
  induction blocks with
  | nil => rfl
  | cons b bs ih =>
    have h1 : insertHistRow rows (histRowOfBlock b) = rows :=
      insertHistRow_noop rows (histRowOfBlock b) (h b (List.mem_cons_self b bs))
    show insertBlocks (insertHistRow rows (histRowOfBlock b)) bs = rows
    rw [h1]
    exact ih (fun c hc => h c (List.mem_cons_of_mem b hc))

/-- C8: history insertion is idempotent on height: an INSERT OR IGNORE of a
record whose height is already present leaves the table exactly as it was
(no overwrite of any stored field), a height present exactly once stays
present exactly once, and re-persisting a whole batch leaves blocks_history
unchanged. -/
theorem history_insert_idempotent :
    (∀ rows (r : HistRow), hasHeight rows r.height = true →
      insertHistRow rows r = rows) ∧
    (∀ rows (r : HistRow),
      rows.countP (fun x => x.height == r.height) = 1 →
      insertHistRow rows r = rows ∧
      (insertHistRow rows r).countP (fun x => x.height == r.height) = 1) ∧
    (∀ (s : StatsDB) (blocks : List Block) (n1 n2 : Int),
      (saveBlocksToStats (saveBlocksToStats (some s) blocks n1) blocks n2).map
          StatsDB.history =
        (saveBlocksToStats (some s) blocks n1).map StatsDB.history) := by
  refine ⟨insertHistRow_noop, ?_, ?_⟩
  · intro rows r h1
    have hpos : 0 < rows.countP (fun x => x.height == r.height) := by
      rw [h1]; exact Nat.one_pos
    have hany : hasHeight rows r.height = true := by
      unfold hasHeight
      rw [List.any_eq_true]
      obtain ⟨a, ha, hpa⟩ := List.countP_pos_iff.1 hpos
      exact ⟨a, ha, hpa⟩
    have he := insertHistRow_noop rows r hany
    exact ⟨he, by rw [he, h1]⟩
  · intro s blocks n1 n2
    by_cases hb : blocks = []
    · subst hb
      simp [saveBlocksToStats]
    · have hie : blocks.isEmpty = false := by
        cases blocks with
        | nil => exact absurd rfl hb
        | cons a as => rfl
      have hsave : ∀ (t : StatsDB) (m : Int),
          saveBlocksToStats (some t) blocks m =
            some (updateDailyStats
              { t with history := insertBlocks t.history blocks }
              (toISODate (m.fdiv 1000)) (m.fdiv 1000)) := by
        intro t m
        simp [saveBlocksToStats, hie]
      rw [hsave, hsave]
      simp only [Option.map_some', Option.some.injEq, updateDailyStats_history]
      exact insertBlocks_noop _ _ (fun b hb2 => insertBlocks_mem s.history blocks b hb2)

theorem history_insert_idempotent_witness :
    insertHistRow [histRowOfBlock blkA] (histRowOfBlock blkA) =
      [histRowOfBlock blkA] ∧
    (insertHistRow [histRowOfBlock blkA] (histRowOfBlock blkA)).countP
      (fun x => x.height == (histRowOfBlock blkA).height) = 1 :=
  ⟨history_insert_idempotent.1 [histRowOfBlock blkA] (histRowOfBlock blkA)
     (by decide),
   (history_insert_idempotent.2.1 [histRowOfBlock blkA] (histRowOfBlock blkA)
     (by decide)).2⟩

/-- C9: the retention sweep of initDatabase deletes exactly the history rows
whose timestamp lies before now minus 90 days and the daily rows whose date
string lies before the corresponding cutoff date, keeping every younger row
untouched and inventing no new rows. -/
theorem retention_sweep (s : StatsDB) (nowMs : Int) :
    (∀ r ∈ (initDatabase s nowMs).history,
      ¬ r.timestamp < nowMs.fdiv 1000 - 90 * 24 * 60 * 60) ∧
    (∀ r ∈ s.history,
      ¬ r.timestamp < nowMs.fdiv 1000 - 90 * 24 * 60 * 60 →
      r ∈ (initDatabase s nowMs).history) ∧
    (∀ r ∈ (initDatabase s nowMs).history, r ∈ s.history) ∧
    (∀ r ∈ (initDatabase s nowMs).daily,
      ¬ r.date < toISODate (nowMs.fdiv 1000 - 90 * 24 * 60 * 60)) ∧
    (∀ r ∈ s.daily,
      ¬ r.date < toISODate (nowMs.fdiv 1000 - 90 * 24 * 60 * 60) →
      r ∈ (initDatabase s nowMs).daily) ∧
    (∀ r ∈ (initDatabase s nowMs).daily, r ∈ s.daily) := by
  refine ⟨?_, ?_, ?_, ?_, ?_, ?_⟩ <;> intro r hr
  · intro hlt
    have h2 := (List.mem_filter.1 hr).2
    rw [decide_eq_true hlt] at h2
    exact Bool.noConfusion h2
  · intro hkeep
    exact List.mem_filter.2 ⟨hr, by rw [decide_eq_false hkeep]; rfl⟩
  · exact (List.mem_filter.1 hr).1
  · intro hlt
    have h2 := (List.mem_filter.1 hr).2
    rw [decide_eq_true hlt] at h2
    exact Bool.noConfusion h2
  · intro hkeep
    exact List.mem_filter.2 ⟨hr, by rw [decide_eq_false hkeep]; rfl⟩
  · exact (List.mem_filter.1 hr).1

theorem retention_sweep_witness :
    rowNew ∈ (initDatabase { history := [rowOld, rowNew], daily := [] }
      8640000000).history ∧
    rowOld ∉ (initDatabase { history := [rowOld, rowNew], daily := [] }
      8640000000).history :=
  ⟨(retention_sweep { history := [rowOld, rowNew], daily := [] }
      8640000000).2.1 rowNew (by decide) (by decide),
   fun hmem =>
     (retention_sweep { history := [rowOld, rowNew], daily := [] }
       8640000000).1 rowOld hmem (by decide)⟩

/-! Helper lemmas about JavaScript truthiness of the cached reward. -/

theorem jsTruthyInt_true_elim (o : Option Int) (h : jsTruthyInt o = true) :
    ∃ r, o = some r ∧ r ≠ 0 := by
  cases o with
  | none => cases h
  | some n =>
    refine ⟨n, rfl, ?_⟩
    simpa [jsTruthyInt] using h

theorem jsTruthyInt_false_getD (o : Option Int) (h : jsTruthyInt o = false) :
    o.getD 0 = 0 := by
  cases o with
  | none => rfl
  | some n =>
    have : n = 0 := by simpa [jsTruthyInt] using h
    simp [this]

/-- C10: the live block-reward key is only ever written with a nonzero
value: in a cycle whose blocks and tip-height fetches succeed, the key
either keeps its previous contents or receives some nonzero reward; when the
derived reward is zero or could not be derived, the snapshot reports
blockReward = 0 while the key is left untouched; and whenever the key is
still not truthy after the cycle, the reward-fetch guard fires again on any
later cycle with a nonempty blocks list. -/
theorem blockReward_nonzero_writes (st : ManagerState) (f : FetchResults)
    (nowMs : Int) (bs : List Block) (tip : Int) (hrun : st.running = false)
    (hb : f.blocks = Except.ok bs) (ht : f.tipHeight = Except.ok tip) :
    ((updateManager st f nowMs).live.blockReward = st.live.blockReward ∨
      ∃ r, (updateManager st f nowMs).live.blockReward = some r ∧ r ≠ 0) ∧
    (jsTruthyInt (rewardStep st.live.blockReward bs f.rewardTxs st.immut).1 =
        false →
      (updateManager st f nowMs).live.blockReward = st.live.blockReward ∧
      ∃ d, (updateManager st f nowMs).live.dashboard = some d ∧
        d.blockReward = 0) ∧
    (jsTruthyInt (updateManager st f nowMs).live.blockReward = false →
      ∀ bs2 : List Block, bs2 ≠ [] →
        rewardFetchGuard (updateManager st f nowMs).live.blockReward bs2 =
          true) := by
  rw [updateManager_of_idle st f nowMs hrun,
    runCycle_of_ok _ f nowMs bs tip hb ht]
  refine ⟨?_, ?_, ?_⟩
  · rcases htr : jsTruthyInt
        (rewardStep st.live.blockReward bs f.rewardTxs st.immut).1 with h | h
    · left
      show (if jsTruthyInt (rewardStep st.live.blockReward bs f.rewardTxs
          st.immut).1
        then (rewardStep st.live.blockReward bs f.rewardTxs st.immut).1
        else st.live.blockReward) = st.live.blockReward
      rw [htr]
      rfl
    · right
      obtain ⟨r, hr, hnz⟩ := jsTruthyInt_true_elim _ htr
      refine ⟨r, ?_, hnz⟩
      show (if jsTruthyInt (rewardStep st.live.blockReward bs f.rewardTxs
          st.immut).1
        then (rewardStep st.live.blockReward bs f.rewardTxs st.immut).1
        else st.live.blockReward) = some r
      rw [htr, hr]
      rfl
  · intro htr
    constructor
    · show (if jsTruthyInt (rewardStep st.live.blockReward bs f.rewardTxs
          st.immut).1
        then (rewardStep st.live.blockReward bs f.rewardTxs st.immut).1
        else st.live.blockReward) = st.live.blockReward
      rw [htr]
      rfl
    · refine ⟨_, rfl, ?_⟩
      show (rewardStep st.live.blockReward bs f.rewardTxs st.immut).1.getD 0 = 0
      exact jsTruthyInt_false_getD _ htr
  · intro htr bs2 hbs2
    unfold rewardFetchGuard
    rw [htr]
    cases bs2 with
    | nil => exact absurd rfl hbs2
    | cons a as => rfl

theorem blockReward_nonzero_writes_witness :
    ((updateManager st0 fZeroReward 7).live.blockReward =
        st0.live.blockReward ∧
      ∃ d, (updateManager st0 fZeroReward 7).live.dashboard = some d ∧
        d.blockReward = 0) ∧
    (∀ bs2 : List Block, bs2 ≠ [] →
      rewardFetchGuard (updateManager st0 fZeroReward 7).live.blockReward
        bs2 = true) :=
  ⟨(blockReward_nonzero_writes st0 fZeroReward 7 [blkSimple] 5
      rfl rfl rfl).2.1 (by decide),
   (blockReward_nonzero_writes st0 fZeroReward 7 [blkSimple] 5
      rfl rfl rfl).2.2 (by decide)⟩
